import Mathlib

/-!
Verification of the voting-period governance state machine specified for the
tezos repository.  The repository source holds only the integration tests
(`src/tests_python/tests_008/test_voting.py`); the protocol code they test is
not part of the repository, so every definition below is modelled from the
specification (spec.md), kept consistent with the behaviour the tests in
`src/` assert.
-/

set_option maxRecDepth 10000

/-- Modelled from the spec: configuration fixed at initialization (section 6);
`blocks_per_commitment` is added for the `expected_commitment` field of
`Level`, whose formula the spec leaves to the protocol. -/
structure Config where
  blocks_per_cycle : Nat
  blocks_per_commitment : Nat
  blocks_per_voting_period : Nat
  deriving DecidableEq, Repr

/-- Modelled from the spec: the `Level` record (section 3), derived purely
from height and configuration. -/
structure Level where
  level : Nat
  level_position : Nat
  cycle : Nat
  cycle_position : Nat
  voting_period : Nat
  voting_period_position : Nat
  expected_commitment : Bool
  deriving DecidableEq, Repr

/-- Modelled from the spec: error kinds of section 7 (`ConfigurationError` is
about construction-time validation and is not needed by any claim). -/
inductive VotingError where
  | OutOfRangeError
  | InvalidPeriodError
  | DuplicateVoterError
  | WrongProposalError
  deriving DecidableEq, Repr

/-- Modelled from the spec: the pure level arithmetic shared by every view
(sections 3 and 4.1): position `p` maps to cycle `p / blocks_per_cycle`,
cycle position `p % blocks_per_cycle`, voting period
`p / blocks_per_voting_period` and voting period position
`p % blocks_per_voting_period`. -/
def levelOf (cfg : Config) (p : Nat) : Level :=
  { level := p + 1
    level_position := p
    cycle := p / cfg.blocks_per_cycle
    cycle_position := p % cfg.blocks_per_cycle
    voting_period := p / cfg.blocks_per_voting_period
    voting_period_position := p % cfg.blocks_per_voting_period
    expected_commitment :=
      (p % cfg.blocks_per_cycle + 1) % cfg.blocks_per_commitment == 0 }

/-- Modelled from the spec: `LevelClock.compute(height, offset)` (section
4.1): pure and total over the configuration, fails with `OutOfRangeError`
when `height + offset < 0`. -/
def LevelClock.compute (cfg : Config) (height : Nat) (offset : Int) :
    Except VotingError Level :=
  let pos : Int := (height : Int) + offset
  if pos < 0 then .error .OutOfRangeError
  else .ok (levelOf cfg pos.toNat)

/-- Modelled from the spec: period kinds (section 4.2); only `Proposal` and
`TestingVote` are exercised, the others are representable pass-through
variants. -/
inductive PeriodKind where
  | Proposal
  | TestingVote
  | Testing
  | Promotion
  | Adoption
  deriving DecidableEq, Repr

/-- Modelled from the spec: the `VotingPeriod` record (section 3). -/
structure VotingPeriod where
  index : Nat
  kind : PeriodKind
  start_position : Nat
  deriving DecidableEq, Repr

/-- Modelled from the spec: the `PeriodInfo` record (section 3). -/
structure PeriodInfo where
  voting_period : VotingPeriod
  position : Nat
  remaining : Nat
  deriving DecidableEq, Repr

/-- Modelled from the spec: ballot choices (section 3). -/
inductive Vote where
  | yay
  | nay
  | pass
  deriving DecidableEq, Repr

/-- Modelled from the spec: a recorded ballot (section 3). -/
structure Ballot where
  voter : String
  proposal : String
  vote : Vote
  deriving DecidableEq, Repr

/-- Modelled from the spec: the mutable state owned by the tracker, proposal
ledger and ballot box (sections 3 and 4.2-4.4): current level position,
current voting period, the (voter, proposal-hash) submissions recorded in the
current period, and the ballots of the current period. -/
structure SystemState where
  height : Nat
  period : VotingPeriod
  proposals : List (String × String)
  ballots : List Ballot
  deriving DecidableEq, Repr

/-- Modelled from the spec: initial state (section 4.2): index 0, kind
Proposal, start position 0, established at activation (height 0). -/
def initState : SystemState :=
  { height := 0
    period := { index := 0, kind := .Proposal, start_position := 0 }
    proposals := []
    ballots := [] }

/-- Modelled from the spec: number of distinct voters that submitted a given
proposal hash in the current period (section 4.3). -/
def voteCount (props : List (String × String)) (h : String) : Nat :=
  (((props.filter (fun p => p.2 == h)).map Prod.fst).dedup).length

/-- Modelled from the spec: the hash with strictly the most distinct
submitting voters, none on a tie (section 4.3). -/
def winner (props : List (String × String)) : Option String :=
  let hashes := (props.map Prod.snd).dedup
  hashes.find? (fun h =>
    hashes.all (fun h2 => h2 == h || decide (voteCount props h2 < voteCount props h)))

/-- Modelled from the spec: `current_proposal()` (section 4.3); during a
TestingVote period the submissions of the preceding Proposal period are kept,
so the same computation yields the proposal under vote. -/
def current_proposal (s : SystemState) : Option String :=
  winner s.proposals

/-- Modelled from the spec: `ProposalLedger.submit` (section 4.3), with the
duplicate rule pinned by the tests in `src/`
(`test_break_proposal_tie` has a voter submit twice in one period and
succeed): the duplicate check is per (voter, proposal-hash), not per voter. -/
def submit (s : SystemState) (voter : String) (hashes : List String) :
    Except VotingError SystemState :=
  if s.period.kind ≠ .Proposal then .error .InvalidPeriodError
  else if hashes.any (fun h => s.proposals.contains (voter, h)) then
    .error .DuplicateVoterError
  else .ok { s with proposals := s.proposals ++ hashes.map (fun h => (voter, h)) }

/-- Modelled from the spec: `BallotBox.cast` (section 4.4): active only
during TestingVote, the hash must match the current proposal, one ballot per
voter per period, first vote authoritative. -/
def BallotBox.cast (s : SystemState) (voter : String) (hash : String) (v : Vote) :
    Except VotingError SystemState :=
  if s.period.kind ≠ .TestingVote then .error .InvalidPeriodError
  else if current_proposal s ≠ some hash then .error .WrongProposalError
  else if s.ballots.any (fun b => b.voter == voter) then .error .DuplicateVoterError
  else .ok { s with ballots := s.ballots ++ [⟨voter, hash, v⟩] }

/-- Modelled from the spec: governance operations carried by a block
(section 6). -/
inductive Op where
  | proposals (voter : String) (hashes : List String)
  | ballot (voter : String) (hash : String) (v : Vote)
  deriving DecidableEq, Repr

/-- Modelled from the spec: applying one operation; errors are local, the
operation is rejected and not applied (section 7). -/
def applyOp (s : SystemState) (op : Op) : SystemState :=
  match op with
  | .proposals voter hashes =>
    match submit s voter hashes with
    | .ok s2 => s2
    | .error _ => s
  | .ballot voter hash v =>
    match BallotBox.cast s voter hash v with
    | .ok s2 => s2
    | .error _ => s

/-- Modelled from the spec: the successor kind on a period-boundary crossing.
Per the tests in `src/` (`test_bake_first_block_of_proposal_period`, period 0
Proposal rolls into period 1 Proposal with no proposal submitted, and
`test_bake_first_block_of_testing_vote_period`, period 1 Proposal with a
current proposal rolls into TestingVote), a Proposal period is followed by
TestingVote exactly when a current proposal exists; TestingVote falls back to
Proposal (the supermajority adoption condition is out of scope, section
4.2). -/
def succKind (s : SystemState) : PeriodKind :=
  match s.period.kind with
  | .Proposal => if (winner s.proposals).isSome then .TestingVote else .Proposal
  | _ => .Proposal

/-- Modelled from the spec: state after a period-boundary crossing to the new
level position `h`: index increments, start position resets, kind follows the
successor rule; the proposal record is cleared on rollover to a Proposal
period and ballots are cleared on every rollover (section 3, lifecycle). -/
def rolloverTo (s : SystemState) (h : Nat) : SystemState :=
  let k := succKind s
  { height := h
    period := { index := s.period.index + 1, kind := k, start_position := h }
    proposals := if k = .Proposal then [] else s.proposals
    ballots := [] }

/-- Modelled from the spec: `advance` to the next block, the only mutator
(section 4.2): if `new_level_position - start_position >=
blocks_per_voting_period` the period rolls over, then the block's governance
operations are applied. -/
def advance (cfg : Config) (s : SystemState) (ops : List Op) : SystemState :=
  ops.foldl applyOp
    (if cfg.blocks_per_voting_period ≤ s.height + 1 - s.period.start_position
      then rolloverTo s (s.height + 1)
      else { s with height := s.height + 1 })

/-- Modelled from the spec: `current()` (sections 3 and 4.2): `position =
level_position - start_position`, `remaining = blocks_per_period - 1 -
position`. -/
def currentPeriodInfo (cfg : Config) (s : SystemState) : PeriodInfo :=
  { voting_period := s.period
    position := s.height - s.period.start_position
    remaining := cfg.blocks_per_voting_period - 1
      - (s.height - s.period.start_position) }

/-- Modelled from the spec: the deprecated single-enum period-kind field of
the block metadata; the tests in `src/`
(`test_bake_last_block_of_proposal_period` reads "testing_vote" on the last
block of a Proposal period, `test_bake_first_block_of_new_proposal_period`
reads "proposal" on the last block of a TestingVote period) pin that on the
last block of a period it reports the successor period's kind. -/
def deprecatedKind (cfg : Config) (s : SystemState) : PeriodKind :=
  if s.height - s.period.start_position = cfg.blocks_per_voting_period - 1
  then succKind s
  else s.period.kind

/-- Modelled from the spec: the per-block metadata view (section 4.5):
`Level`, `PeriodInfo` and the deprecated period-kind field. -/
structure BlockMetadata where
  level : Level
  period_info : PeriodInfo
  voting_period_kind : PeriodKind
  deriving DecidableEq, Repr

/-- Modelled from the spec: the metadata derived from a state. -/
def mkMetadata (cfg : Config) (s : SystemState) : BlockMetadata :=
  { level := levelOf cfg s.height
    period_info := currentPeriodInfo cfg s
    voting_period_kind := deprecatedKind cfg s }

/-- Modelled from the spec: running the machine from a state over a list of
blocks (each block is its list of governance operations). -/
def runFrom (cfg : Config) (s : SystemState) (blocks : List (List Op)) :
    SystemState :=
  blocks.foldl (advance cfg) s

/-- Modelled from the spec: the live run's record of the metadata observed at
every head, heights 0 up to the number of blocks. -/
def history (cfg : Config) (s : SystemState) : List (List Op) → List BlockMetadata
  | [] => [mkMetadata cfg s]
  | ops :: rest => mkMetadata cfg s :: history cfg (advance cfg s ops) rest

/-- Modelled from the spec: `MetadataProjector.project(H)` (section 4.5):
recomputes the level and period facts for height `H` independently of the
live head, by replaying the same pure logic over the chain up to `H`. -/
def MetadataProjector.project (cfg : Config) (blocks : List (List Op)) (H : Nat) :
    BlockMetadata :=
  mkMetadata cfg (runFrom cfg initState (blocks.take H))

/-- The configuration of the test fixture: sandbox cycle parameters with
`blocks_per_voting_period = 4`. -/
def cfgT : Config :=
  { blocks_per_cycle := 8, blocks_per_commitment := 4, blocks_per_voting_period := 4 }

/-- The chain of the test scenario in
`src/tests_python/tests_008/test_voting.py`: twelve baked blocks; the
proposal submissions land in the blocks at level positions 5 and 7, the
ballots in the blocks at positions 9 and 11 (`proto1`, `proto2`, `proto3`
stand for `protos[0]`, `protos[1]`, `protos[2]`). -/
def testBlocks : List (List Op) :=
  [ [], [], [],
    [],
    [ .proposals "bootstrap1" ["proto1"],
      .proposals "bootstrap2" ["proto1", "proto2"],
      .proposals "bootstrap3" ["proto2"],
      .proposals "bootstrap4" ["proto3"] ],
    [],
    [ .proposals "bootstrap4" ["proto2"] ],
    [],
    [ .ballot "bootstrap1" "proto2" .yay,
      .ballot "bootstrap2" "proto2" .yay,
      .ballot "bootstrap3" "proto2" .yay ],
    [],
    [ .ballot "bootstrap4" "proto2" .nay ],
    [] ]

/-- Modelled from the spec: the tracker invariant of section 3: the period
start never exceeds the head and the head lies within the period. -/
def TrackerInv (cfg : Config) (s : SystemState) : Prop :=
  s.period.start_position ≤ s.height ∧
    s.height - s.period.start_position < cfg.blocks_per_voting_period

/-- State of the test scenario after its first `n` blocks. -/
def testState (n : Nat) : SystemState :=
  runFrom cfgT initState (testBlocks.take n)

theorem submit_ok_frame {s s2 : SystemState} {voter : String} {hashes : List String}
    (h : submit s voter hashes = .ok s2) :
    s2.height = s.height ∧ s2.period = s.period ∧ s2.ballots = s.ballots := by
  unfold submit at h
  split_ifs at h
  simp_all
  subst h
  exact ⟨rfl, rfl, rfl⟩

theorem cast_ok_frame {s s2 : SystemState} {voter hash : String} {v : Vote}
    (h : BallotBox.cast s voter hash v = .ok s2) :
    s2.height = s.height ∧ s2.period = s.period ∧ s2.proposals = s.proposals := by
  unfold BallotBox.cast at h
  split_ifs at h
  simp_all
  subst h
  exact ⟨rfl, rfl, rfl⟩

theorem applyOp_frame (s : SystemState) (op : Op) :
    (applyOp s op).height = s.height ∧ (applyOp s op).period = s.period := by
  cases op with
  | proposals voter hashes =>
    rcases heq : submit s voter hashes with e | s2
    · simp [applyOp, heq]
    · obtain ⟨h1, h2, _⟩ := submit_ok_frame heq
      simp [applyOp, heq, h1, h2]
  | ballot voter hash v =>
    rcases heq : BallotBox.cast s voter hash v with e | s2
    · simp [applyOp, heq]
    · obtain ⟨h1, h2, _⟩ := cast_ok_frame heq
      simp [applyOp, heq, h1, h2]

theorem foldl_applyOp_frame (ops : List Op) (s : SystemState) :
    (ops.foldl applyOp s).height = s.height ∧ (ops.foldl applyOp s).period = s.period := by
  induction ops generalizing s with
  | nil => exact ⟨rfl, rfl⟩
  | cons op rest ih =>
    simp only [List.foldl_cons]
    obtain ⟨h1, h2⟩ := applyOp_frame s op
    obtain ⟨h3, h4⟩ := ih (applyOp s op)
    exact ⟨h3.trans h1, h4.trans h2⟩

theorem advance_inv (cfg : Config) (hbp : 0 < cfg.blocks_per_voting_period)
    (s : SystemState) (hs : TrackerInv cfg s) (ops : List Op) :
    TrackerInv cfg (advance cfg s ops) := by
  obtain ⟨ha, hb⟩ := hs
  unfold advance
  have H := foldl_applyOp_frame ops
    (if cfg.blocks_per_voting_period ≤ s.height + 1 - s.period.start_position
      then rolloverTo s (s.height + 1)
      else { s with height := s.height + 1 })
  unfold TrackerInv
  rw [H.1, H.2]
  split
  · next hc =>
    simp only [rolloverTo]
    exact ⟨le_refl _, by omega⟩
  · next hc =>
    simp only []
    exact ⟨by omega, by omega⟩

theorem runFrom_inv (cfg : Config) (hbp : 0 < cfg.blocks_per_voting_period)
    (blocks : List (List Op)) (s : SystemState) (hs : TrackerInv cfg s) :
    TrackerInv cfg (runFrom cfg s blocks) := by
  induction blocks generalizing s with
  | nil => exact hs
  | cons ops rest ih =>
    simp only [runFrom, List.foldl_cons]
    exact ih (advance cfg s ops) (advance_inv cfg hbp s hs ops)

theorem initState_inv (cfg : Config) (hbp : 0 < cfg.blocks_per_voting_period) :
    TrackerInv cfg initState :=
  ⟨Nat.le_refl 0, by simpa using hbp⟩

theorem history_get (cfg : Config) (blocks : List (List Op)) (s : SystemState)
    (H : Nat) (hH : H ≤ blocks.length) :
    (history cfg s blocks).get? H =
      some (mkMetadata cfg (runFrom cfg s (blocks.take H))) := by
  induction blocks generalizing s H with
  | nil =>
    have h0 : H = 0 := Nat.le_zero.mp hH
    subst h0
    simp [history, runFrom]
  | cons ops rest ih =>
    cases H with
    | zero => simp [history, runFrom]
    | succ H2 =>
      simp only [history, List.get?_cons_succ, List.take_succ_cons, runFrom,
        List.foldl_cons]
      exact ih (advance cfg s ops) H2 (by simpa using hH)

/-- Claim C1: for every previously-processed height H, the MetadataProjector's
independently recomputed view equals the live tracker's view observed when the
head was at H: later advances (`rest`) do not change the projection, and the
projection equals the metadata recorded in the live history at H — the whole
`BlockMetadata`, i.e. the `Level`, the `PeriodInfo` (index, kind, start
position, position, remaining) and the deprecated single-enum period-kind
field, bit for bit. -/
theorem claim_C1 (cfg : Config) (blocks rest : List (List Op)) (H : Nat)
    (hH : H ≤ blocks.length) :
    MetadataProjector.project cfg (blocks ++ rest) H =
      MetadataProjector.project cfg blocks H
    ∧ (history cfg initState blocks).get? H =
        some (MetadataProjector.project cfg blocks H) := by
  constructor
  · unfold MetadataProjector.project
    rw [List.take_append_of_le_length hH]
  · exact history_get cfg blocks initState H hH

/-- Claim C1 witness: at height 7 of the test chain, the projection computed
after a later advance equals the projection over the original chain, and both
equal the metadata the live run recorded at height 7. -/
theorem claim_C1_witness :
    MetadataProjector.project cfgT (testBlocks ++ [[]]) 7 =
      MetadataProjector.project cfgT testBlocks 7
    ∧ (history cfgT initState testBlocks).get? 7 =
        some (MetadataProjector.project cfgT testBlocks 7) :=
  claim_C1 cfgT testBlocks [[]] 7 (by decide)

/-- Claim C2: after every sequence of advances, the `PeriodInfo` returned by
`current()` satisfies `position < blocks_per_voting_period` (positions are
naturals, so `0 <= position` holds by typing) and
`remaining = blocks_per_voting_period - 1 - position`, hence
`position + remaining = blocks_per_voting_period - 1`. -/
theorem claim_C2 (cfg : Config) (blocks : List (List Op))
    (hbp : 0 < cfg.blocks_per_voting_period) :
    (currentPeriodInfo cfg (runFrom cfg initState blocks)).position
        < cfg.blocks_per_voting_period
    ∧ (currentPeriodInfo cfg (runFrom cfg initState blocks)).remaining
        = cfg.blocks_per_voting_period - 1
          - (currentPeriodInfo cfg (runFrom cfg initState blocks)).position
    ∧ (currentPeriodInfo cfg (runFrom cfg initState blocks)).position
        + (currentPeriodInfo cfg (runFrom cfg initState blocks)).remaining
        = cfg.blocks_per_voting_period - 1 := by
  obtain ⟨ha, hb⟩ :=
    runFrom_inv cfg hbp blocks initState (initState_inv cfg hbp)
  unfold currentPeriodInfo
  refine ⟨hb, rfl, ?_⟩
  dsimp only
  omega

/-- Claim C2 witness: the invariant instantiated on the full test chain. -/
theorem claim_C2_witness :
    (currentPeriodInfo cfgT (runFrom cfgT initState testBlocks)).position
        < cfgT.blocks_per_voting_period
    ∧ (currentPeriodInfo cfgT (runFrom cfgT initState testBlocks)).remaining
        = cfgT.blocks_per_voting_period - 1
          - (currentPeriodInfo cfgT (runFrom cfgT initState testBlocks)).position
    ∧ (currentPeriodInfo cfgT (runFrom cfgT initState testBlocks)).position
        + (currentPeriodInfo cfgT (runFrom cfgT initState testBlocks)).remaining
        = cfgT.blocks_per_voting_period - 1 :=
  claim_C2 cfgT testBlocks (by decide)

/-- Claim C4: with `blocks_per_voting_period = 4`, at height 0 the tracker
reports index 0, kind Proposal, start position 0, position 0, remaining 3;
after 3 advances it reports position 3 and remaining 0; and on the 4th
advance the index becomes 1 and the start position resets to 4 with position
0 and remaining 3. -/
theorem claim_C4 :
    currentPeriodInfo cfgT (runFrom cfgT initState []) =
      { voting_period := { index := 0, kind := .Proposal, start_position := 0 },
        position := 0, remaining := 3 }
    ∧ currentPeriodInfo cfgT (runFrom cfgT initState [[], [], []]) =
      { voting_period := { index := 0, kind := .Proposal, start_position := 0 },
        position := 3, remaining := 0 }
    ∧ currentPeriodInfo cfgT (runFrom cfgT initState [[], [], [], []]) =
      { voting_period := { index := 1, kind := .Proposal, start_position := 4 },
        position := 0, remaining := 3 } := by
  decide

/-- Claim C5: for every height and offset with a non-negative resulting
position, `LevelClock.compute` returns the `Level` whose `level_position` is
the resulting 0-indexed height, with `cycle = level_position /
blocks_per_cycle`, `cycle_position = level_position % blocks_per_cycle`,
`voting_period = level_position / blocks_per_voting_period` and
`voting_period_position = level_position % blocks_per_voting_period`. -/
theorem claim_C5 (cfg : Config) (h : Nat) (k : Int) (hk : 0 ≤ (h : Int) + k) :
    LevelClock.compute cfg h k = .ok (levelOf cfg ((h : Int) + k).toNat)
    ∧ (levelOf cfg ((h : Int) + k).toNat).level_position = ((h : Int) + k).toNat
    ∧ (levelOf cfg ((h : Int) + k).toNat).cycle
        = ((h : Int) + k).toNat / cfg.blocks_per_cycle
    ∧ (levelOf cfg ((h : Int) + k).toNat).cycle_position
        = ((h : Int) + k).toNat % cfg.blocks_per_cycle
    ∧ (levelOf cfg ((h : Int) + k).toNat).voting_period
        = ((h : Int) + k).toNat / cfg.blocks_per_voting_period
    ∧ (levelOf cfg ((h : Int) + k).toNat).voting_period_position
        = ((h : Int) + k).toNat % cfg.blocks_per_voting_period := by
  refine ⟨?_, rfl, rfl, rfl, rfl, rfl⟩
  unfold LevelClock.compute
  rw [if_neg (by omega)]

/-- Claim C5 witness: the offset-10 query of the test (`offset=10` from
height 0 lands at level position 10, voting period 2, period position 2). -/
theorem claim_C5_witness :
    LevelClock.compute cfgT 0 10 = .ok (levelOf cfgT 10)
    ∧ (levelOf cfgT 10).level_position = 10
    ∧ (levelOf cfgT 10).voting_period = 2
    ∧ (levelOf cfgT 10).voting_period_position = 2 := by
  have h := (claim_C5 cfgT 0 10 (by decide)).1
  refine ⟨?_, by decide, by decide, by decide⟩
  simpa using h

/-- Claim C6: querying `at(H, +k)` lands at height H + k, and querying back
with offset `-k` from there returns the original `Level` computed for H (the
query is a pure function of the configuration and height, so tracked state is
untouched by construction). -/
theorem claim_C6 (cfg : Config) (h : Nat) (k : Int) (hk : 0 ≤ (h : Int) + k) :
    LevelClock.compute cfg ((h : Int) + k).toNat (-k) = LevelClock.compute cfg h 0 := by
  unfold LevelClock.compute
  have h1 : ((((h : Int) + k).toNat : Int) + -k) = (h : Int) := by omega
  rw [h1]
  norm_num

/-- Claim C6 witness: the test's round trip between level positions 6 and 10
(`at(6, +4)` then `at(10, -4)` recovers the level of height 6). -/
theorem claim_C6_witness :
    LevelClock.compute cfgT 10 (-4) = LevelClock.compute cfgT 6 0 := by
  have h := claim_C6 cfgT 6 4 (by decide)
  simpa using h

/-- Claim C3 counterexample: after the first boundary crossing of the test
configuration with no proposal submitted (four empty blocks), the new period
has index 1 but kind Proposal, not TestingVote — exactly what
`test_bake_first_block_of_proposal_period` asserts — so a Proposal period is
not always followed by a TestingVote period. -/
theorem claim_C3_counterexample :
    (runFrom cfgT initState [[], [], [], []]).period.index = 1
    ∧ (runFrom cfgT initState [[], [], [], []]).period.kind = PeriodKind.Proposal
    ∧ (runFrom cfgT initState [[], [], [], []]).period.kind ≠ PeriodKind.TestingVote := by
  decide

/-- Claim C3 (amended): on every period-boundary crossing on block advance,
the index increments, the start position resets to the new level position,
and the new kind follows the successor rule: a Proposal period is followed by
TestingVote exactly when a current proposal exists at the crossing and by
another Proposal period otherwise; a TestingVote period is followed by a
Proposal period. -/
theorem claim_C3 (cfg : Config) (s : SystemState) (ops : List Op)
    (hroll : cfg.blocks_per_voting_period ≤ s.height + 1 - s.period.start_position) :
    (advance cfg s ops).period.index = s.period.index + 1
    ∧ (advance cfg s ops).period.start_position = s.height + 1
    ∧ (s.period.kind = .Proposal →
        (advance cfg s ops).period.kind =
          (if (current_proposal s).isSome then PeriodKind.TestingVote
            else PeriodKind.Proposal))
    ∧ (s.period.kind = .TestingVote →
        (advance cfg s ops).period.kind = PeriodKind.Proposal) := by
  have H := foldl_applyOp_frame ops (rolloverTo s (s.height + 1))
  unfold advance
  rw [if_pos hroll]
  rw [H.2]
  refine ⟨rfl, rfl, ?_, ?_⟩
  · intro hk
    simp [rolloverTo, succKind, current_proposal, hk]
  · intro hk
    simp [rolloverTo, succKind, hk]

/-- Claim C3 witness: the crossing from period 1 (Proposal, current proposal
present) of the test chain yields period 2 of kind TestingVote starting at
position 8. -/
theorem claim_C3_witness :
    (advance cfgT (testState 7) []).period.index = 2
    ∧ (advance cfgT (testState 7) []).period.start_position = 8
    ∧ (advance cfgT (testState 7) []).period.kind = PeriodKind.TestingVote := by
  have h := claim_C3 cfgT (testState 7) [] (by decide)
  refine ⟨?_, ?_, ?_⟩
  · rw [h.1]; decide
  · rw [h.2.1]; decide
  · rw [h.2.2.1 (by decide)]; decide

/-- Claim C7: `current_proposal()` returns the hash with strictly the most
distinct submitting voters (any other submitted hash has strictly fewer); on
the test chain, with `proto1` and `proto2` tied at 2 distinct voters each
(out of 4) it returns none, and after the extra submission gives `proto2` a
third distinct voter, `proto2` becomes the current proposal. -/
theorem claim_C7 :
    (∀ (props : List (String × String)) (h : String), winner props = some h →
      ∀ h2 : String, h2 ∈ props.map Prod.snd → h2 ≠ h →
        voteCount props h2 < voteCount props h)
    ∧ voteCount (testState 6).proposals "proto1" = 2
    ∧ voteCount (testState 6).proposals "proto2" = 2
    ∧ current_proposal (testState 6) = none
    ∧ voteCount (testState 7).proposals "proto2" = 3
    ∧ current_proposal (testState 7) = some "proto2" := by
  refine ⟨?_, by decide, by decide, by decide, by decide, by decide⟩
  intro props h hw h2 hmem hne
  unfold winner at hw
  have hp := List.find?_some hw
  rw [List.all_eq_true] at hp
  have h3 := hp h2 (List.mem_dedup.mpr hmem)
  rw [Bool.or_eq_true] at h3
  rcases h3 with h4 | h4
  · exact absurd (by simpa using h4) hne
  · exact of_decide_eq_true h4

/-- Claim C7 witness: the strict-majority characterization applied to the
post-tie-break ledger: `proto1` has strictly fewer distinct voters than the
winning `proto2`. -/
theorem claim_C7_witness :
    voteCount (testState 7).proposals "proto1" < voteCount (testState 7).proposals "proto2" :=
  claim_C7.1 (testState 7).proposals "proto2" (by decide) "proto1" (by decide) (by decide)

/-- Claim C8 counterexample: at level position 6 of the test chain the period
kind is Proposal and `bootstrap4` has already submitted (`proto3`) in the
current period, yet a second `submit` call by `bootstrap4` (with the fresh
hash `proto2`, the tie-break of `test_break_proposal_tie`) succeeds and is
applied — it is not rejected with `DuplicateVoterError`. -/
theorem claim_C8_counterexample :
    (testState 6).period.kind = PeriodKind.Proposal
    ∧ (testState 6).proposals.any (fun p => p.1 == "bootstrap4") = true
    ∧ submit (testState 6) "bootstrap4" ["proto2"]
        = Except.ok { testState 6 with
            proposals := (testState 6).proposals ++ [("bootstrap4", "proto2")] } := by
  refine ⟨by decide, by decide, by rfl⟩

/-- Claim C8 (amended): `submit` fails with `InvalidPeriodError` when the
current period kind is not Proposal, and fails with `DuplicateVoterError`
when the voter re-submits a proposal hash that same voter already submitted
in the current period; a submission by a voter whose submitted hashes are all
new is recorded, even if the voter already submitted other hashes this
period. -/
theorem claim_C8 (s : SystemState) (voter : String) (hashes : List String) :
    (s.period.kind ≠ .Proposal → submit s voter hashes = .error .InvalidPeriodError)
    ∧ (s.period.kind = .Proposal →
        hashes.any (fun h => s.proposals.contains (voter, h)) = true →
        submit s voter hashes = .error .DuplicateVoterError)
    ∧ (s.period.kind = .Proposal →
        hashes.any (fun h => s.proposals.contains (voter, h)) = false →
        submit s voter hashes =
          .ok { s with proposals := s.proposals ++ hashes.map (fun h => (voter, h)) }) := by
  refine ⟨?_, ?_, ?_⟩
  · intro h1
    unfold submit
    rw [if_pos h1]
  · intro h1 h2
    unfold submit
    rw [if_neg (by simp [h1]), if_pos h2]
  · intro h1 h2
    unfold submit
    rw [if_neg (by simp [h1]), if_neg (by rw [h2]; simp)]

/-- Claim C8 witness: on the test chain, re-submitting the already-submitted
hash `proto3` by `bootstrap4` is rejected as a duplicate, and submitting
during the TestingVote period (level position 9) fails with
`InvalidPeriodError`. -/
theorem claim_C8_witness :
    submit (testState 6) "bootstrap4" ["proto3"] = .error .DuplicateVoterError
    ∧ submit (testState 9) "bootstrap1" ["proto1"] = .error .InvalidPeriodError :=
  ⟨(claim_C8 (testState 6) "bootstrap4" ["proto3"]).2.1 (by decide) (by decide),
   (claim_C8 (testState 9) "bootstrap1" ["proto1"]).1 (by decide)⟩

/-- Claim C9: during a TestingVote period, a second ballot from a voter who
already has a recorded ballot is rejected with `DuplicateVoterError`, and the
state — in particular the ballot list holding the first vote — is unchanged
when the operation is applied. -/
theorem claim_C9 (s : SystemState) (voter hash : String) (v : Vote)
    (hkind : s.period.kind = .TestingVote)
    (hcur : current_proposal s = some hash)
    (hdup : s.ballots.any (fun b => b.voter == voter) = true) :
    BallotBox.cast s voter hash v = .error .DuplicateVoterError
    ∧ applyOp s (.ballot voter hash v) = s := by
  have hc : BallotBox.cast s voter hash v = .error .DuplicateVoterError := by
    unfold BallotBox.cast
    rw [if_neg (by simp [hkind]), if_neg (by simp [hcur]), if_pos hdup]
  refine ⟨hc, ?_⟩
  simp only [applyOp]
  rw [hc]

/-- Claim C9 witness: at level position 9 of the test chain `bootstrap1` has
already voted yay; a repeat ballot is rejected and the state (hence the
recorded first vote) is unchanged. -/
theorem claim_C9_witness :
    BallotBox.cast (testState 9) "bootstrap1" "proto2" .yay
        = .error .DuplicateVoterError
    ∧ applyOp (testState 9) (.ballot "bootstrap1" "proto2" .yay) = testState 9 :=
  claim_C9 (testState 9) "bootstrap1" "proto2" .yay (by decide) (by decide) (by decide)

/-- Claim C10: at the last block of a voting period (position =
blocks_per_voting_period - 1, remaining = 0), the deprecated single-enum
period-kind field of the block metadata reports the successor period's kind
rather than the current one: TestingVote while the current kind is still
Proposal (when a current proposal exists), and Proposal while the current
kind is still TestingVote. -/
theorem claim_C10 (cfg : Config) (s : SystemState)
    (hlast : s.height - s.period.start_position = cfg.blocks_per_voting_period - 1) :
    deprecatedKind cfg s = succKind s
    ∧ (s.period.kind = .Proposal → (current_proposal s).isSome = true →
        deprecatedKind cfg s = PeriodKind.TestingVote
        ∧ deprecatedKind cfg s ≠ s.period.kind)
    ∧ (s.period.kind = .TestingVote →
        deprecatedKind cfg s = PeriodKind.Proposal
        ∧ deprecatedKind cfg s ≠ s.period.kind) := by
  have h1 : deprecatedKind cfg s = succKind s := by
    unfold deprecatedKind
    rw [if_pos hlast]
  refine ⟨h1, ?_, ?_⟩
  · intro hk hcur
    unfold current_proposal at hcur
    have h2 : succKind s = PeriodKind.TestingVote := by
      simp [succKind, hk, hcur]
    rw [h1, h2, hk]
    exact ⟨rfl, by decide⟩
  · intro hk
    have h2 : succKind s = PeriodKind.Proposal := by
      simp [succKind, hk]
    rw [h1, h2, hk]
    exact ⟨rfl, by decide⟩

/-- Claim C10 witness: on the test chain the metadata's deprecated kind reads
TestingVote at level position 7 (current kind Proposal) and Proposal at level
position 11 (current kind TestingVote), as the tests assert. -/
theorem claim_C10_witness :
    deprecatedKind cfgT (testState 7) = PeriodKind.TestingVote
    ∧ (testState 7).period.kind = PeriodKind.Proposal
    ∧ deprecatedKind cfgT (testState 11) = PeriodKind.Proposal
    ∧ (testState 11).period.kind = PeriodKind.TestingVote :=
  ⟨((claim_C10 cfgT (testState 7) (by decide)).2.1 (by decide) (by decide)).1,
   by decide,
   ((claim_C10 cfgT (testState 11) (by decide)).2.2 (by decide)).1,
   by decide⟩
